import Mathlib

/-!
Shallow embedding of `source/tagger/preprocess.cpp` from the deeplocalizer
repository, together with proofs settling the specification claims about it.

The pixel buffer, path arithmetic and the per-stage transformations are
translated from the source file.  Pieces of the repository that are not under
`src/` (the `Image.h` header with the tag-size constants and the `Image` /
`ImageDesc` classes) and the external OpenCV / Boost routines the source calls
are modelled from the specification; each such definition carries a doc
comment starting with `Modelled from the spec:`.
-/

namespace Deeplocalizer

/-- A single-channel pixel buffer (`cv::Mat` with type `CV_8U`): a row count,
a column count, and the intensity sample at each coordinate.  Out-of-range
coordinates are total (the function is defined everywhere); only the values at
`i < rows`, `j < cols` are meaningful. -/
structure Mat where
  rows : Nat
  cols : Nat
  pix : Nat → Nat → Nat

/-- Modelled from the spec: the fixed tag/tile width (§3 TileSize constant).
`TAG_WIDTH` is defined in `Image.h`, which is not part of `src/`; the spec
only requires a fixed size, shared by the border margin and the
contrast-normalization tiling, for which `cols + TAG_WIDTH` equals the padded
width (so the value is even).  We fix 100. -/
def TAG_WIDTH : Nat := 100

/-- Modelled from the spec: the fixed tag/tile height (§3 TileSize constant),
see `TAG_WIDTH`. -/
def TAG_HEIGHT : Nat := 100

/-- A filesystem path, modelled as its list of components
(`boost::filesystem::path`).  `a/b/c.png` is `["a", "b", "c.png"]`. -/
abbrev Path : Type := List String

/-- Modelled from the spec: rendering a path as the string Boost produces,
components joined by the directory separator. -/
def pathToString (p : Path) : String := String.intercalate "/" p

/-- Modelled from the spec: `boost::filesystem::path::filename()` — the last
component of the path (empty string for the empty path). -/
def pathFilename (p : Path) : String := (p.getLast?).getD ""

/-- Number of characters strictly after the last dot of the name. -/
def afterDotLen (cs : List Char) : Nat :=
  (cs.reverse.takeWhile (fun c => c != '.')).length

/-- Index of the last dot of the name (meaningful only when a dot occurs). -/
def lastDotIndex (cs : List Char) : Nat :=
  cs.length - afterDotLen cs - 1

/-- Modelled from the spec: whether a filename has no extension under the
Boost rules — the names `.` and `..`, and any name without a dot, have no
extension. -/
def hasNoExtension (name : String) : Bool :=
  name == "." || name == ".." || !(name.toList.contains '.')

/-- Modelled from the spec: `boost::filesystem::path::extension()` on a
filename — the substring starting at the last dot (including the dot), empty
when the name has no extension. -/
def extensionOf (name : String) : String :=
  if hasNoExtension name then ""
  else String.mk (name.toList.drop (lastDotIndex name.toList))

/-- Modelled from the spec: the filename with its extension removed
(`boost::filesystem::path::replace_extension()` with no argument applied to
the last component); this is exactly the Boost `stem()` of the filename. -/
def removeExtension (name : String) : String :=
  if hasNoExtension name then name
  else String.mk (name.toList.take (lastDotIndex name.toList))

/-- `addWb` from `preprocess.cpp` (lines 32–38): copy the path, remember its
extension, strip the extension, then append `"_wb"` followed by the
remembered extension to the path text.  Since the appended text contains no
separator, only the last component changes. -/
def addWb (filename : Path) : Path :=
  match filename.getLast? with
  | none => ["_wb"]
  | some name => filename.dropLast ++ [removeExtension name ++ "_wb" ++ extensionOf name]

/-- Modelled from the spec: `cv::copyMakeBorder` with
`BORDER_REPLICATE | BORDER_ISOLATED` — the destination gets `top`/`bottom`
extra rows and `left`/`right` extra columns, and each destination pixel takes
the source pixel whose row and column indices are clamped independently into
the source rectangle (edge replication per axis, no wrap-around, no blending
across sides at corners). -/
def copyMakeBorderReplicate (m : Mat) (top bottom left right : Nat) : Mat :=
  Mat.mk (m.rows + top + bottom) (m.cols + left + right)
    (fun i j => m.pix (min (i - top) (m.rows - 1)) (min (j - left) (m.cols - 1)))

/-- `makeBorder` from `preprocess.cpp` (lines 77–85): replicated border of
`TAG_HEIGHT / 2` rows on top and bottom and `TAG_WIDTH / 2` columns on left
and right.  (The source pre-allocates a `rows + TAG_HEIGHT` by
`cols + TAG_WIDTH` destination; `cv::copyMakeBorder` re-creates the
destination with exactly those dimensions.) -/
def makeBorder (mat : Mat) : Mat :=
  copyMakeBorderReplicate mat (TAG_HEIGHT / 2) (TAG_HEIGHT / 2)
    (TAG_WIDTH / 2) (TAG_WIDTH / 2)

/-- The `max_value` constant of `adaptiveTresholding` (line 53). -/
def max_value : Nat := 255

/-- The `block_size` constant of `adaptiveTresholding` (line 54). -/
def block_size : Nat := 51

/-- The `weight_original` constant of `adaptiveTresholding` (line 55),
modelled as the exact rational 7/10. -/
def weight_original : ℚ := 7 / 10

/-- The `weight_threshold` constant of `adaptiveTresholding` (line 56),
modelled as the exact rational 3/10. -/
def weight_threshold : ℚ := 3 / 10

/-- Modelled from the spec: the normalized one-dimensional Gaussian weight
used by the external library's `ADAPTIVE_THRESH_GAUSSIAN_C` smoothing for a
window of `n` taps.  The library computes the kernel in floating point; we
model it by the exact binomial (discrete Gaussian) weights, which sum to 1. -/
def gaussKernel (n : Nat) (d : Nat) : ℚ :=
  (Nat.choose (n - 1) d : ℚ) / ((2 : ℚ) ^ (n - 1))

/-- Index of the neighbourhood sample at offset `off` (in `0, …, n-1`, with
radius `r = n / 2`) around position `i`, clamped into `0, …, size-1`
(replicated border, isolated — the external library's behaviour inside
`adaptiveThreshold`). -/
def replClamp (i off r size : Nat) : Nat :=
  Int.toNat (min (max ((i : Int) + (off : Int) - (r : Int)) 0) ((size : Int) - 1))

/-- Modelled from the spec: the Gaussian-weighted mean of the
`blockSize × blockSize` neighbourhood of pixel `(i, j)`, with replicated
edges — the local threshold of the Adaptive Threshold stage (§4.3). -/
def gaussianLocalMean (m : Mat) (blockSize : Nat) (i j : Nat) : ℚ :=
  ((List.range blockSize).map (fun dx =>
    ((List.range blockSize).map (fun dy =>
      gaussKernel blockSize dx * gaussKernel blockSize dy *
        ((m.pix (replClamp i dx (blockSize / 2) m.rows)
                (replClamp j dy (blockSize / 2) m.cols) : Nat) : ℚ))).sum)).sum

/-- Modelled from the spec: `cv::adaptiveThreshold` with
`ADAPTIVE_THRESH_GAUSSIAN_C` and `THRESH_BINARY` — each output pixel is
`maxValue` when the source pixel exceeds its Gaussian-weighted local mean
minus the offset `c`, else 0.  Same dimensions as the input. -/
def cvAdaptiveThresholdGaussian (m : Mat) (maxValue blockSize : Nat) (c : ℚ) : Mat :=
  Mat.mk m.rows m.cols
    (fun i j =>
      if gaussianLocalMean m blockSize i j - c < ((m.pix i j : Nat) : ℚ)
      then maxValue else 0)

/-- Saturating cast of an integer into the 8-bit range (the clamp the
external library applies when storing into a `CV_8U` buffer; the inputs here
are never negative). -/
def satCast (z : ℤ) : Nat := Int.toNat (min z 255)

/-- Modelled from the spec: `cv::addWeighted` on 8-bit buffers — each output
pixel is the rounded, saturated value of
`alpha * src1 + beta * src2 + gamma`. -/
def cvAddWeighted (src1 : Mat) (alpha : ℚ) (src2 : Mat) (beta gamma : ℚ) : Mat :=
  Mat.mk src1.rows src1.cols
    (fun i j =>
      satCast (round (alpha * ((src1.pix i j : Nat) : ℚ) +
                      beta * ((src2.pix i j : Nat) : ℚ) + gamma)))

/-- `adaptiveTresholding` from `preprocess.cpp` (lines 52–67): compute the
binary mask by Gaussian adaptive thresholding with block size 51 and offset
0; if `use_binary_image` the buffer becomes the mask, otherwise it becomes
the 0.7/0.3 weighted blend of the original with the mask. -/
def adaptiveTresholding (mat : Mat) (use_binary_image : Bool) : Mat :=
  let mat_threshold := cvAdaptiveThresholdGaussian mat max_value block_size 0
  if use_binary_image then mat_threshold
  else cvAddWeighted mat weight_original mat_threshold weight_threshold 0

/-- The `clip_limit` constant of `localHistogramEq` (line 70). -/
def clip_limit : Nat := 2

/-- Modelled from the spec: the per-tile cap on histogram counts — the clip
limit scaled to the tile area over the 256 intensity bins, at least 1. -/
def clipLimitValue (area : Nat) : Nat := max 1 (clip_limit * area / 256)

/-- Number of tiles covering an axis of `size` pixels with tiles of `tile`
pixels (last tile possibly truncated). -/
def numTiles (size tile : Nat) : Nat := (size + tile - 1) / tile

/-- Height (in pixels) of tile row `tr`, truncated at the buffer edge. -/
def tileRows (m : Mat) (tr : Nat) : Nat := min TAG_HEIGHT (m.rows - tr * TAG_HEIGHT)

/-- Width (in pixels) of tile column `tc`, truncated at the buffer edge. -/
def tileCols (m : Mat) (tc : Nat) : Nat := min TAG_WIDTH (m.cols - tc * TAG_WIDTH)

/-- Modelled from the spec: the histogram count of intensity `v` inside tile
`(tr, tc)` of the non-overlapping `TAG_WIDTH × TAG_HEIGHT` tiling (§4.2). -/
def tileHist (m : Mat) (tr tc v : Nat) : Nat :=
  ((List.range (tileRows m tr)).map (fun di =>
    ((List.range (tileCols m tc)).filter (fun dj =>
      m.pix (tr * TAG_HEIGHT + di) (tc * TAG_WIDTH + dj) == v)).length)).sum

/-- Modelled from the spec: the clipped histogram — each bin capped by the
clip limit so amplification in near-uniform tiles is bounded (§4.2). -/
def tileClippedHist (m : Mat) (tr tc v : Nat) : Nat :=
  min (tileHist m tr tc v) (clipLimitValue (tileRows m tr * tileCols m tc))

/-- Cumulative clipped histogram of tile `(tr, tc)` up to intensity `v`. -/
def tileCdf (m : Mat) (tr tc v : Nat) : Nat :=
  ((List.range (v + 1)).map (fun u => tileClippedHist m tr tc u)).sum

/-- Total clipped mass of tile `(tr, tc)`. -/
def tileTotal (m : Mat) (tr tc : Nat) : Nat := tileCdf m tr tc 255

/-- Modelled from the spec: the equalization mapping of tile `(tr, tc)` —
intensity `v` is sent to `255 ·  cdf(v) / total` (identity on an empty
tile). -/
def tileMap (m : Mat) (tr tc v : Nat) : ℚ :=
  if tileTotal m tr tc = 0 then (v : ℚ)
  else (255 * tileCdf m tr tc v : ℚ) / (tileTotal m tr tc : ℚ)

/-- Index (possibly negative or past the end, clamped later) of the tile
whose centre lies at or before position `p` on an axis with tiles of `t`
pixels. -/
def axisBase (p t : Nat) : ℤ :=
  Int.floor ((((p : ℚ) - ((t / 2 : Nat) : ℚ)) / (t : ℚ) : ℚ))

/-- Fractional position of `p` between the two neighbouring tile centres. -/
def axisWeight (p t : Nat) : ℚ :=
  ((p : ℚ) - ((t / 2 : Nat) : ℚ)) / (t : ℚ) - ((axisBase p t : ℤ) : ℚ)

/-- Clamp a tile index into `0, …, n-1`. -/
def clampTile (k : ℤ) (n : Nat) : Nat := Int.toNat (min (max k 0) ((n : ℤ) - 1))

/-- Modelled from the spec: Contrast Normalization (§4.2).  The source's
`localHistogramEq` (lines 69–75) calls the external OpenCV CLAHE with clip
limit 2 and tile size `TAG_WIDTH × TAG_HEIGHT`, whose implementation is not
part of this repository.  Following the spec's words: the buffer is
partitioned into non-overlapping `TAG_WIDTH × TAG_HEIGHT` tiles; each tile
gets a histogram-equalization mapping whose amplification is capped by the
clip limit; each pixel is remapped by bilinear interpolation between the
mappings of the neighbouring tiles, so no blocking artifacts appear at tile
boundaries.  Dimensions are unchanged. -/
def localHistogramEq (m : Mat) : Mat :=
  Mat.mk m.rows m.cols
    (fun i j =>
      let nr := numTiles m.rows TAG_HEIGHT
      let nc := numTiles m.cols TAG_WIDTH
      let r0 := clampTile (axisBase i TAG_HEIGHT) nr
      let r1 := clampTile (axisBase i TAG_HEIGHT + 1) nr
      let c0 := clampTile (axisBase j TAG_WIDTH) nc
      let c1 := clampTile (axisBase j TAG_WIDTH + 1) nc
      let wr := axisWeight i TAG_HEIGHT
      let wc := axisWeight j TAG_WIDTH
      let v := m.pix i j
      (round ((1 - wr) * ((1 - wc) * tileMap m r0 c0 v + wc * tileMap m r0 c1 v) +
              wr * ((1 - wc) * tileMap m r1 c0 v + wc * tileMap m r1 c1 v))).toNat)

/-- `processImage` from `preprocess.cpp` (lines 86–100): apply the enabled
stages to the buffer in the fixed order border → histogram equalization →
adaptive thresholding. -/
def processImage (img : Mat) (use_hist_eq use_thresholding use_binary_image make_border : Bool) :
    Mat :=
  let m1 := if make_border then makeBorder img else img
  let m2 := if use_hist_eq then localHistogramEq m1 else m1
  if use_thresholding then adaptiveTresholding m2 use_binary_image else m2

/-- `ImageDesc` (declared in `Image.h`, not under `src/`).  Modelled from the
spec: one entry per input image, holding the input path (§3
ImageDescriptor). -/
structure ImageDesc where
  filename : Path
deriving DecidableEq

/-- `writeOutputPathfile` from `preprocess.cpp` (lines 40–50): the manifest
file written at `pathfile`, holding each output path followed by a newline.
The pair is the path of the file and its full text. -/
def writeOutputPathfile (pathfile : Path) (output_paths : List String) : Path × String :=
  (pathfile, String.join (output_paths.map (fun p => p ++ "\n")))

/-- The error line `run` prints on `stderr` when a write fails (line 119). -/
def failMessage (output : Path) : String :=
  "Fail to write image : " ++ pathToString output

/-- Observable outcome of one `run` call: the return status, the image files
written to disk in order (path and encoded buffer), the manifest file (path
and text) if one was written, and the error lines printed. -/
structure RunResult where
  status : Nat
  written : List (Path × Mat)
  manifestFile : Option (Path × String)
  errors : List String

/-- The per-image loop of `run` (lines 112–127), with the decode of an
`ImageDesc` into a buffer and the success of an image write supplied as
oracles (`Image::Image(desc)` and `Image::write` live outside `src/`).
`output_paths` and `written` are the accumulators; progress printing is
output-only and not modelled. -/
def runLoop (decode : ImageDesc → Mat) (writeOk : Path → Mat → Bool)
    (output_dir manifestPath : Path) (uhe uth ubi ubo : Bool) :
    List ImageDesc → List String → List (Path × Mat) → RunResult
  | [], output_paths, written =>
      RunResult.mk 0 written (some (writeOutputPathfile manifestPath output_paths)) []
  | desc :: rest, output_paths, written =>
      let img := processImage (decode desc) uhe uth ubi ubo
      let output := addWb (output_dir ++ [pathFilename desc.filename])
      if writeOk output img then
        runLoop decode writeOk output_dir manifestPath uhe uth ubi ubo rest
          (output_paths ++ [pathToString output]) (written ++ [(output, img)])
      else
        RunResult.mk 1 written none [failMessage output]

/-- `run` from `preprocess.cpp` (lines 102–128): process every descriptor in
order, abort with status 1 on the first failed write, and on completion write
the manifest to the explicit override path or to `output_dir/images.txt` and
return 0.  Directory creation and progress printing are filesystem/display
side effects outside the claims and are not modelled. -/
def run (decode : ImageDesc → Mat) (writeOk : Path → Mat → Bool)
    (image_descs : List ImageDesc) (output_dir : Path) (output_pathfile : Option Path)
    (uhe uth ubi ubo : Bool) : RunResult :=
  runLoop decode writeOk output_dir
    (output_pathfile.getD (output_dir ++ ["images.txt"])) uhe uth ubi ubo
    image_descs [] []

/-- The four stage flags read from the command line (`use-hist-eq`,
`use-threshold`, `binary-image`, `border`). -/
structure PipelineFlags where
  use_hist_eq : Bool
  use_threshold : Bool
  use_binary_image : Bool
  border : Bool
deriving DecidableEq

/-- The configuration adjustment in `main` (lines 157–159): `binary-image`
forces the threshold flag on at configuration-build time. -/
def buildConfig (f : PipelineFlags) : PipelineFlags :=
  if f.use_binary_image then
    PipelineFlags.mk f.use_hist_eq true f.use_binary_image f.border
  else f

/-- The parsed command line of `main`: presence of `--help`, the first
positional `pathfile` argument, the `--output-dir` and `--output-pathfile`
options, and the four stage flags. -/
structure Cli where
  help : Bool
  pathfile : Option String
  output_dir : Option Path
  output_pathfile : Option Path
  flags : PipelineFlags

/-- Observable outcome of `main`: the process exit status, whether a usage
message was printed, and the result of the `run` call if one happened. -/
structure MainResult where
  status : Nat
  usagePrinted : Bool
  runResult : Option RunResult

/-- `main` from `preprocess.cpp` (lines 130–171): with `--help`, print usage
and return 0; with both a pathfile and an output directory, load the
descriptors, build the configuration (`binary-image` forcing the threshold
flag), call `run` — discarding its return value — and return 0; otherwise
print usage and return 0.  `ImageDesc::fromPathFile` is an oracle (its code
is not under `src/`). -/
def mainRun (fromPathFile : String → List ImageDesc) (decode : ImageDesc → Mat)
    (writeOk : Path → Mat → Bool) (cli : Cli) : MainResult :=
  if cli.help then MainResult.mk 0 true none
  else
    match cli.pathfile, cli.output_dir with
    | some pf, some output_dir =>
        let image_descs := fromPathFile pf
        let f := buildConfig cli.flags
        let r := run decode writeOk image_descs output_dir cli.output_pathfile
          f.use_hist_eq f.use_threshold f.use_binary_image f.border
        MainResult.mk 0 false (some r)
    | _, _ => MainResult.mk 0 true none

/-- The output path `run` derives for a descriptor (lines 116–117):
`addWb(output_dir / input_path.filename())`. -/
def outputOf (output_dir : Path) (d : ImageDesc) : Path :=
  addWb (output_dir ++ [pathFilename d.filename])

/-- The processed buffer `run` encodes for a descriptor (lines 114–115). -/
def processedOf (decode : ImageDesc → Mat) (uhe uth ubi ubo : Bool) (d : ImageDesc) : Mat :=
  processImage (decode d) uhe uth ubi ubo

/-- Whether the write of the output image of descriptor `d` succeeds
(line 118). -/
def writeSucceeds (decode : ImageDesc → Mat) (writeOk : Path → Mat → Bool)
    (output_dir : Path) (uhe uth ubi ubo : Bool) (d : ImageDesc) : Bool :=
  writeOk (outputOf output_dir d) (processedOf decode uhe uth ubi ubo d)

theorem runLoop_all_ok (decode : ImageDesc → Mat) (writeOk : Path → Mat → Bool)
    (output_dir manifestPath : Path) (uhe uth ubi ubo : Bool) (descs : List ImageDesc) :
    ∀ (acc : List String) (w : List (Path × Mat)),
    (∀ d ∈ descs, writeSucceeds decode writeOk output_dir uhe uth ubi ubo d = true) →
    runLoop decode writeOk output_dir manifestPath uhe uth ubi ubo descs acc w =
      RunResult.mk 0
        (w ++ descs.map (fun d =>
          (outputOf output_dir d, processedOf decode uhe uth ubi ubo d)))
        (some (writeOutputPathfile manifestPath
          (acc ++ descs.map (fun d => pathToString (outputOf output_dir d)))))
        [] := by
  induction descs with
  | nil => intro acc w _; simp [runLoop]
  | cons d rest ih =>
      intro acc w hall
      have hd : writeOk (addWb (output_dir ++ [pathFilename d.filename]))
          (processImage (decode d) uhe uth ubi ubo) = true := by
        have := hall d (by simp)
        simpa [writeSucceeds, outputOf, processedOf] using this
      have hrest : ∀ x ∈ rest, writeSucceeds decode writeOk output_dir uhe uth ubi ubo x = true :=
        fun x hx => hall x (List.mem_cons_of_mem d hx)
      simp only [runLoop, hd, if_true]
      rw [ih _ _ hrest]
      simp [outputOf, processedOf, List.append_assoc]

theorem runLoop_first_failure (decode : ImageDesc → Mat) (writeOk : Path → Mat → Bool)
    (output_dir manifestPath : Path) (uhe uth ubi ubo : Bool) (front : List ImageDesc)
    (d : ImageDesc) :
    ∀ (post : List ImageDesc) (acc : List String) (w : List (Path × Mat)),
    (∀ x ∈ front, writeSucceeds decode writeOk output_dir uhe uth ubi ubo x = true) →
    writeSucceeds decode writeOk output_dir uhe uth ubi ubo d = false →
    runLoop decode writeOk output_dir manifestPath uhe uth ubi ubo (front ++ d :: post) acc w =
      RunResult.mk 1
        (w ++ front.map (fun x =>
          (outputOf output_dir x, processedOf decode uhe uth ubi ubo x)))
        none
        [failMessage (outputOf output_dir d)] := by
  induction front with
  | nil =>
      intro post acc w _ hd
      have hd' : writeOk (addWb (output_dir ++ [pathFilename d.filename]))
          (processImage (decode d) uhe uth ubi ubo) = false := by
        simpa [writeSucceeds, outputOf, processedOf] using hd
      simp [runLoop, hd', outputOf]
  | cons x rest ih =>
      intro post acc w hall hd
      have hx : writeOk (addWb (output_dir ++ [pathFilename x.filename]))
          (processImage (decode x) uhe uth ubi ubo) = true := by
        have := hall x (by simp)
        simpa [writeSucceeds, outputOf, processedOf] using this
      have hrest : ∀ y ∈ rest, writeSucceeds decode writeOk output_dir uhe uth ubi ubo y = true :=
        fun y hy => hall y (List.mem_cons_of_mem x hy)
      simp only [List.cons_append, runLoop, hx, if_true, List.append_eq]
      rw [ih _ _ _ hrest hd]
      simp [outputOf, processedOf, List.append_assoc]

/-- A 1×1 sample buffer with constant intensity 7, used as a concrete input
by the witnesses. -/
def sampleMat : Mat := Mat.mk 1 1 (fun _ _ => 7)

/-- C9: for every input buffer and configuration, applying the full stage
pipeline twice to the same buffer with the same configuration yields
identical output buffers — the pipeline `processImage` is a deterministic
function of the buffer and the four flags. -/
theorem c9_pipeline_deterministic (m : Mat) (uhe uth ubi ubo : Bool) :
    processImage m uhe uth ubi ubo = processImage m uhe uth ubi ubo := rfl

/-- C10: on the empty descriptor list, `run` performs no per-image work,
still writes a manifest with zero paths (empty text) to the override path or
to `output_dir/images.txt`, and returns 0. -/
theorem c10_empty_batch (decode : ImageDesc → Mat) (writeOk : Path → Mat → Bool)
    (output_dir : Path) (output_pathfile : Option Path) (uhe uth ubi ubo : Bool) :
    run decode writeOk [] output_dir output_pathfile uhe uth ubi ubo =
      RunResult.mk 0 []
        (some (output_pathfile.getD (output_dir ++ ["images.txt"]), "")) [] := rfl

/-- C7: for every descriptor (with a nonempty input path), the output path
is the output directory with one extra component, the input's filename with
`"_wb"` inserted between its stem and its extension; the output depends on the
input path only through its filename, so the input's directory structure is
not preserved. -/
theorem c7_output_filename_convention (output_dir : Path) (d : ImageDesc)
    (_hne : d.filename ≠ []) :
    outputOf output_dir d =
      output_dir ++ [removeExtension (pathFilename d.filename) ++ "_wb" ++
        extensionOf (pathFilename d.filename)] ∧
    ∀ d2 : ImageDesc, pathFilename d2.filename = pathFilename d.filename →
      outputOf output_dir d2 = outputOf output_dir d := by
  refine ⟨?_, ?_⟩
  · simp only [outputOf, addWb, List.getLast?_concat, List.dropLast_concat]
  · intro d2 h2
    simp only [outputOf, h2]

theorem c7_output_filename_convention_witness :
    (ImageDesc.mk ["data", "photo.png"]).filename ≠ [] ∧
    (outputOf ["out"] (ImageDesc.mk ["data", "photo.png"]) =
      ["out"] ++ [removeExtension (pathFilename (ImageDesc.mk ["data", "photo.png"]).filename) ++
        "_wb" ++ extensionOf (pathFilename (ImageDesc.mk ["data", "photo.png"]).filename)] ∧
    ∀ d2 : ImageDesc,
      pathFilename d2.filename = pathFilename (ImageDesc.mk ["data", "photo.png"]).filename →
      outputOf ["out"] d2 = outputOf ["out"] (ImageDesc.mk ["data", "photo.png"])) :=
  ⟨by decide, c7_output_filename_convention ["out"] (ImageDesc.mk ["data", "photo.png"])
    (by decide)⟩

/-- C8: whenever the pathfile or the output directory is missing from the
command line, `main` prints a usage message, calls `run` on no images, and
returns the success status 0. -/
theorem c8_missing_config_usage (fromPathFile : String → List ImageDesc)
    (decode : ImageDesc → Mat) (writeOk : Path → Mat → Bool) (cli : Cli)
    (hmiss : cli.pathfile = none ∨ cli.output_dir = none) :
    (mainRun fromPathFile decode writeOk cli).status = 0 ∧
    (mainRun fromPathFile decode writeOk cli).usagePrinted = true ∧
    (mainRun fromPathFile decode writeOk cli).runResult = none := by
  unfold mainRun
  by_cases hh : cli.help
  · simp [hh]
  · simp only [hh, if_false, Bool.false_eq_true]
    rcases hmiss with h | h <;> rw [h]
    · rcases hx : cli.output_dir with _ | v <;> exact ⟨rfl, rfl, rfl⟩
    · rcases hx : cli.pathfile with _ | v <;> exact ⟨rfl, rfl, rfl⟩

theorem c8_missing_config_usage_witness :
    ((Cli.mk false none (some ["out"]) none (PipelineFlags.mk false false false true)).pathfile
        = none ∨
      (Cli.mk false none (some ["out"]) none
        (PipelineFlags.mk false false false true)).output_dir = none) ∧
    ((mainRun (fun _ => []) (fun _ => sampleMat) (fun _ _ => true)
        (Cli.mk false none (some ["out"]) none (PipelineFlags.mk false false false true))).status
          = 0 ∧
      (mainRun (fun _ => []) (fun _ => sampleMat) (fun _ _ => true)
        (Cli.mk false none (some ["out"]) none
          (PipelineFlags.mk false false false true))).usagePrinted = true ∧
      (mainRun (fun _ => []) (fun _ => sampleMat) (fun _ _ => true)
        (Cli.mk false none (some ["out"]) none
          (PipelineFlags.mk false false false true))).runResult = none) :=
  ⟨Or.inl rfl, c8_missing_config_usage (fun _ => []) (fun _ => sampleMat) (fun _ _ => true)
    (Cli.mk false none (some ["out"]) none (PipelineFlags.mk false false false true))
    (Or.inl rfl)⟩

/-- C5: whenever the `binary-image` flag is on, the configuration built by
`main` has the threshold flag on regardless of its explicit value, and the
pipeline run under that built configuration executes the adaptive-threshold
stage (in binary mode) after the border and histogram stages; the enforcement
lives at configuration-build time, not inside the stage: `processImage` under
the raw flags with the threshold flag off skips the threshold stage even with
`binary-image` on. -/
theorem c5_binary_forces_threshold (f : PipelineFlags) (m : Mat)
    (hb : f.use_binary_image = true) :
    (buildConfig f).use_threshold = true ∧
    processImage m (buildConfig f).use_hist_eq (buildConfig f).use_threshold
        (buildConfig f).use_binary_image (buildConfig f).border =
      adaptiveTresholding
        (if (buildConfig f).use_hist_eq then
          localHistogramEq (if (buildConfig f).border then makeBorder m else m)
         else (if (buildConfig f).border then makeBorder m else m)) true ∧
    processImage m f.use_hist_eq false f.use_binary_image f.border =
      (if f.use_hist_eq then localHistogramEq (if f.border then makeBorder m else m)
       else (if f.border then makeBorder m else m)) := by
  obtain ⟨uhe, uth, ubi, ubo⟩ := f
  simp only at hb
  subst hb
  refine ⟨rfl, ?_, ?_⟩
  · simp [buildConfig, processImage]
  · simp [processImage]

theorem c5_binary_forces_threshold_witness :
    (PipelineFlags.mk false false true true).use_binary_image = true ∧
    ((buildConfig (PipelineFlags.mk false false true true)).use_threshold = true ∧
      processImage sampleMat (buildConfig (PipelineFlags.mk false false true true)).use_hist_eq
          (buildConfig (PipelineFlags.mk false false true true)).use_threshold
          (buildConfig (PipelineFlags.mk false false true true)).use_binary_image
          (buildConfig (PipelineFlags.mk false false true true)).border =
        adaptiveTresholding
          (if (buildConfig (PipelineFlags.mk false false true true)).use_hist_eq then
            localHistogramEq
              (if (buildConfig (PipelineFlags.mk false false true true)).border then
                makeBorder sampleMat else sampleMat)
           else (if (buildConfig (PipelineFlags.mk false false true true)).border then
            makeBorder sampleMat else sampleMat)) true ∧
      processImage sampleMat (PipelineFlags.mk false false true true).use_hist_eq false
          (PipelineFlags.mk false false true true).use_binary_image
          (PipelineFlags.mk false false true true).border =
        (if (PipelineFlags.mk false false true true).use_hist_eq then
          localHistogramEq
            (if (PipelineFlags.mk false false true true).border then
              makeBorder sampleMat else sampleMat)
         else (if (PipelineFlags.mk false false true true).border then
          makeBorder sampleMat else sampleMat))) :=
  ⟨rfl, c5_binary_forces_threshold (PipelineFlags.mk false false true true) sampleMat rfl⟩

/-- Concrete descriptor `a.png`, used by the witnesses. -/
def descA : ImageDesc := ImageDesc.mk ["a.png"]

/-- Concrete descriptor `b.png`, used by the witnesses. -/
def descB : ImageDesc := ImageDesc.mk ["b.png"]

/-- Concrete descriptor `c.png`, used by the witnesses. -/
def descC : ImageDesc := ImageDesc.mk ["c.png"]

/-- A write oracle that fails exactly on the output path `out/b_wb.png`. -/
def failOnB : Path → Mat → Bool :=
  fun p _ => if p = ["out", "b_wb.png"] then false else true

/-- C2: when the writes of all descriptors in `front` succeed and the write
of descriptor `d` fails, the batch ends with status 1, no manifest file is
written, exactly the output files of `front` (in order) are on disk, and the
descriptors after `d` are never decoded or processed — the outcome does not
depend on them at all. -/
theorem c2_first_write_failure_aborts (decode : ImageDesc → Mat)
    (writeOk : Path → Mat → Bool) (output_dir : Path) (output_pathfile : Option Path)
    (uhe uth ubi ubo : Bool) (front : List ImageDesc) (d : ImageDesc)
    (post : List ImageDesc)
    (hfront : ∀ x ∈ front, writeSucceeds decode writeOk output_dir uhe uth ubi ubo x = true)
    (hd : writeSucceeds decode writeOk output_dir uhe uth ubi ubo d = false) :
    run decode writeOk (front ++ d :: post) output_dir output_pathfile uhe uth ubi ubo =
      RunResult.mk 1
        (front.map (fun x => (outputOf output_dir x, processedOf decode uhe uth ubi ubo x)))
        none
        [failMessage (outputOf output_dir d)] ∧
    ∀ post' : List ImageDesc,
      run decode writeOk (front ++ d :: post') output_dir output_pathfile uhe uth ubi ubo =
        run decode writeOk (front ++ d :: post) output_dir output_pathfile uhe uth ubi ubo := by
  have h1 := runLoop_first_failure decode writeOk output_dir
    (output_pathfile.getD (output_dir ++ ["images.txt"])) uhe uth ubi ubo front d post
    [] [] hfront hd
  refine ⟨by simpa [run] using h1, ?_⟩
  intro post'
  have h2 := runLoop_first_failure decode writeOk output_dir
    (output_pathfile.getD (output_dir ++ ["images.txt"])) uhe uth ubi ubo front d post'
    [] [] hfront hd
  simp only [run]
  rw [h1, h2]

theorem c2_first_write_failure_aborts_witness :
    (∀ x ∈ [descA], writeSucceeds (fun _ => sampleMat) failOnB ["out"]
        false false false false x = true) ∧
    writeSucceeds (fun _ => sampleMat) failOnB ["out"] false false false false descB = false ∧
    (run (fun _ => sampleMat) failOnB ([descA] ++ descB :: [descC]) ["out"] none
        false false false false =
      RunResult.mk 1
        ([descA].map (fun x =>
          (outputOf ["out"] x, processedOf (fun _ => sampleMat) false false false false x)))
        none
        [failMessage (outputOf ["out"] descB)] ∧
      ∀ post' : List ImageDesc,
        run (fun _ => sampleMat) failOnB ([descA] ++ descB :: post') ["out"] none
            false false false false =
          run (fun _ => sampleMat) failOnB ([descA] ++ descB :: [descC]) ["out"] none
            false false false false) :=
  ⟨by decide, by decide,
    c2_first_write_failure_aborts (fun _ => sampleMat) failOnB ["out"] none
      false false false false [descA] descB [descC] (by decide) (by decide)⟩

/-- C6: when every write in the batch succeeds, `run` returns 0 and writes
the manifest — one output path per successfully written image, each line
newline-terminated, in the order of the input descriptor list — to the
explicit override path when one is given and to `output_dir/images.txt`
otherwise. -/
theorem c6_manifest_on_success (decode : ImageDesc → Mat) (writeOk : Path → Mat → Bool)
    (descs : List ImageDesc) (output_dir : Path) (output_pathfile : Option Path)
    (uhe uth ubi ubo : Bool)
    (hall : ∀ d ∈ descs, writeSucceeds decode writeOk output_dir uhe uth ubi ubo d = true) :
    run decode writeOk descs output_dir output_pathfile uhe uth ubi ubo =
      RunResult.mk 0
        (descs.map (fun d => (outputOf output_dir d, processedOf decode uhe uth ubi ubo d)))
        (some (output_pathfile.getD (output_dir ++ ["images.txt"]),
          String.join (descs.map (fun d => pathToString (outputOf output_dir d) ++ "\n"))))
        [] := by
  have h := runLoop_all_ok decode writeOk output_dir
    (output_pathfile.getD (output_dir ++ ["images.txt"])) uhe uth ubi ubo descs [] [] hall
  simpa [run, writeOutputPathfile] using h

theorem c6_manifest_on_success_witness :
    (∀ d ∈ [descA, descB], writeSucceeds (fun _ => sampleMat) (fun _ _ => true) ["out"]
        false false false false d = true) ∧
    run (fun _ => sampleMat) (fun _ _ => true) [descA, descB] ["out"] none
        false false false false =
      RunResult.mk 0
        ([descA, descB].map (fun d =>
          (outputOf ["out"] d, processedOf (fun _ => sampleMat) false false false false d)))
        (some ((none : Option Path).getD (["out"] ++ ["images.txt"]),
          String.join ([descA, descB].map (fun d => pathToString (outputOf ["out"] d) ++ "\n"))))
        [] :=
  ⟨by decide, c6_manifest_on_success (fun _ => sampleMat) (fun _ _ => true) [descA, descB]
    ["out"] none false false false false (by decide)⟩

/-- The row (or column) of the original buffer that is nearest to output
position `n` along one axis, for a margin of `margin` pixels before an
original extent of `size` pixels: positions inside the leading margin map to
the first line, positions inside the original extent map to themselves, and
positions in the trailing margin map to the last line.  This is the spec's
description of edge replication per side (§4.1). -/
def nearestEdgeIndex (margin size n : Nat) : Nat :=
  if n < margin then 0
  else if n - margin < size then n - margin
  else size - 1

theorem min_clamp_eq_nearestEdgeIndex (margin size n : Nat) (h : 0 < size) :
    min (n - margin) (size - 1) = nearestEdgeIndex margin size n := by
  unfold nearestEdgeIndex
  split_ifs <;> omega

/-- C3: for every non-empty buffer, `makeBorder` yields a buffer of
dimensions `(rows + TAG_HEIGHT) × (cols + TAG_WIDTH)` — a margin of
`TAG_HEIGHT / 2` rows on top and bottom and `TAG_WIDTH / 2` columns on left
and right — and every pixel (margin pixels in particular) equals the original
pixel at the nearest edge position, the row computed from the row alone and
the column from the column alone: replication never wraps around and corners
take the nearest corner pixel, with no cross-edge mixing. -/
theorem c3_makeBorder_edge_replication (m : Mat) (hr : 0 < m.rows) (hc : 0 < m.cols) :
    (makeBorder m).rows = m.rows + TAG_HEIGHT ∧
    (makeBorder m).cols = m.cols + TAG_WIDTH ∧
    ∀ i j, (makeBorder m).pix i j =
      m.pix (nearestEdgeIndex (TAG_HEIGHT / 2) m.rows i)
            (nearestEdgeIndex (TAG_WIDTH / 2) m.cols j) := by
  refine ⟨?_, ?_, ?_⟩
  · show m.rows + TAG_HEIGHT / 2 + TAG_HEIGHT / 2 = m.rows + TAG_HEIGHT
    norm_num [TAG_HEIGHT]
  · show m.cols + TAG_WIDTH / 2 + TAG_WIDTH / 2 = m.cols + TAG_WIDTH
    norm_num [TAG_WIDTH]
  · intro i j
    show m.pix (min (i - TAG_HEIGHT / 2) (m.rows - 1)) (min (j - TAG_WIDTH / 2) (m.cols - 1)) = _
    rw [min_clamp_eq_nearestEdgeIndex _ _ _ hr, min_clamp_eq_nearestEdgeIndex _ _ _ hc]

theorem c3_makeBorder_edge_replication_witness :
    0 < sampleMat.rows ∧ 0 < sampleMat.cols ∧
    ((makeBorder sampleMat).rows = sampleMat.rows + TAG_HEIGHT ∧
      (makeBorder sampleMat).cols = sampleMat.cols + TAG_WIDTH ∧
      ∀ i j, (makeBorder sampleMat).pix i j =
        sampleMat.pix (nearestEdgeIndex (TAG_HEIGHT / 2) sampleMat.rows i)
          (nearestEdgeIndex (TAG_WIDTH / 2) sampleMat.cols j)) :=
  ⟨by decide, by decide,
    c3_makeBorder_edge_replication sampleMat (by decide) (by decide)⟩

theorem round_le_255 (q : ℚ) (hq : q ≤ 255) : round q ≤ (255 : ℤ) := by
  have h255 : ⌊(511 / 2 : ℚ)⌋ = 255 := by
    rw [Int.floor_eq_iff]
    norm_num
  rw [round_eq]
  calc ⌊q + 1 / 2⌋ ≤ ⌊(511 / 2 : ℚ)⌋ := Int.floor_le_floor (by linarith)
    _ = 255 := h255

/-- C4: the Adaptive Threshold & Blend stage first computes the binary mask
by a 51×51 Gaussian-weighted local threshold with zero offset — a pixel of
the mask is 255 exactly when the original pixel exceeds its Gaussian-weighted
local mean; with `use_binary_image` on, the stage's result is exactly that
mask, and with it off each output pixel (of an 8-bit input) equals
`round(0.7 · original + 0.3 · mask)`, with unchanged dimensions. -/
theorem c4_adaptive_threshold_blend (m : Mat)
    (hpix : ∀ i, i < m.rows → ∀ j, j < m.cols → m.pix i j ≤ 255) :
    adaptiveTresholding m true = cvAdaptiveThresholdGaussian m 255 51 0 ∧
    (∀ i j, (cvAdaptiveThresholdGaussian m 255 51 0).pix i j =
      if gaussianLocalMean m 51 i j < ((m.pix i j : Nat) : ℚ) then 255 else 0) ∧
    (adaptiveTresholding m false).rows = m.rows ∧
    (adaptiveTresholding m false).cols = m.cols ∧
    (∀ i, i < m.rows → ∀ j, j < m.cols →
      (adaptiveTresholding m false).pix i j =
        (round ((7 / 10 : ℚ) * ((m.pix i j : Nat) : ℚ) + (3 / 10 : ℚ) *
          (((cvAdaptiveThresholdGaussian m 255 51 0).pix i j : Nat) : ℚ))).toNat) := by
  refine ⟨rfl, ?_, rfl, rfl, ?_⟩
  · intro i j
    show (if gaussianLocalMean m 51 i j - 0 < ((m.pix i j : Nat) : ℚ) then (255 : Nat) else 0)
        = _
    rw [sub_zero]
  · intro i hi j hj
    have ho : ((m.pix i j : Nat) : ℚ) ≤ 255 := by exact_mod_cast hpix i hi j hj
    have ht : (((cvAdaptiveThresholdGaussian m 255 51 0).pix i j : Nat) : ℚ) ≤ 255 := by
      show (((if gaussianLocalMean m 51 i j - 0 < ((m.pix i j : Nat) : ℚ) then (255 : Nat)
        else 0) : Nat) : ℚ) ≤ 255
      split_ifs <;> norm_num
    have key : adaptiveTresholding m false =
        cvAddWeighted m (7 / 10) (cvAdaptiveThresholdGaussian m 255 51 0) (3 / 10) 0 := rfl
    rw [key]
    show satCast (round ((7 / 10 : ℚ) * _ + (3 / 10 : ℚ) * _ + 0)) = _
    rw [add_zero]
    unfold satCast
    rw [min_eq_left (round_le_255 _ (by linarith))]

theorem c4_adaptive_threshold_blend_witness :
    (∀ i, i < sampleMat.rows → ∀ j, j < sampleMat.cols → sampleMat.pix i j ≤ 255) ∧
    (adaptiveTresholding sampleMat true = cvAdaptiveThresholdGaussian sampleMat 255 51 0 ∧
      (∀ i j, (cvAdaptiveThresholdGaussian sampleMat 255 51 0).pix i j =
        if gaussianLocalMean sampleMat 51 i j < ((sampleMat.pix i j : Nat) : ℚ) then 255
        else 0) ∧
      (adaptiveTresholding sampleMat false).rows = sampleMat.rows ∧
      (adaptiveTresholding sampleMat false).cols = sampleMat.cols ∧
      (∀ i, i < sampleMat.rows → ∀ j, j < sampleMat.cols →
        (adaptiveTresholding sampleMat false).pix i j =
          (round ((7 / 10 : ℚ) * ((sampleMat.pix i j : Nat) : ℚ) + (3 / 10 : ℚ) *
            (((cvAdaptiveThresholdGaussian sampleMat 255 51 0).pix i j : Nat) : ℚ))).toNat)) :=
  ⟨fun i _ j _ => by norm_num [sampleMat],
    c4_adaptive_threshold_blend sampleMat (fun i _ j _ => by norm_num [sampleMat])⟩

/-- C1 (evaluation at the failing input): on a batch whose single image
write fails, the inner `run` returns 1 and reports the failing output path,
but `main` discards `run`'s return value (line 161 of `preprocess.cpp` calls
`run(...)` without using the result and falls through to `return 0`), so the
process exit status is 0 — against the claimed (and spec'd) failure status 1.
On an all-success batch the process exit status is 0 as claimed. -/
theorem c1_exit_status_discarded :
    (mainRun (fun _ => [descA]) (fun _ => sampleMat) (fun _ _ => false)
      (Cli.mk false (some "paths.txt") (some ["out"]) none
        (PipelineFlags.mk false false false true))).status = 0 ∧
    ((mainRun (fun _ => [descA]) (fun _ => sampleMat) (fun _ _ => false)
      (Cli.mk false (some "paths.txt") (some ["out"]) none
        (PipelineFlags.mk false false false true))).runResult.map RunResult.status) = some 1 ∧
    ((mainRun (fun _ => [descA]) (fun _ => sampleMat) (fun _ _ => false)
      (Cli.mk false (some "paths.txt") (some ["out"]) none
        (PipelineFlags.mk false false false true))).runResult.map RunResult.errors) =
      some ["Fail to write image : out/a_wb.png"] ∧
    (mainRun (fun _ => [descA]) (fun _ => sampleMat) (fun _ _ => true)
      (Cli.mk false (some "paths.txt") (some ["out"]) none
        (PipelineFlags.mk false false false true))).status = 0 := by
  refine ⟨rfl, ?_, ?_, rfl⟩ <;> decide

end Deeplocalizer
